import Mathlib

/-!
Verification of the bedrock-examples scripts against their specification.

The development shallowly embeds the three Python scripts:
  * `bedrock_nova_reel_text2video.py` — asynchronous video job submission,
    the fixed-interval polling loop, and the derivation of the S3 output
    location from the invocation ARN;
  * `bedrock_nova_image_bg_remove.py` — the S3-URL parser (`parse_s3_url`),
    the base64 transport codec, the response-parsing section of
    `remove_background`, and `main`'s exception boundary;
  * `bedrock_nova_image_bg_change_prompt.py` — the outpainting request body
    built by `change_background` and its exception handlers.

Bytes are `List Nat` (each element < 256); strings of the scripts are
`String` or `List Char`; Python exceptions become `Except` values.
-/

namespace Bedrock

/-! ## Polling loop (bedrock_nova_reel_text2video.py, lines 61-69)

The loop body is: query status; print; if status ≠ "InProgress" break;
otherwise sleep SLEEP_TIME and repeat.  We model one run of the loop on the
finite trace of statuses returned by successive `get_async_invoke` calls,
counting queries and sleeps.  `none` means the trace was exhausted with every
query still answering "InProgress" (the real loop would keep polling). -/

structure PollTrace where
  queries : Nat
  sleeps : Nat
  finalStatus : String
  deriving Repr, DecidableEq

def pollLoop : List String → Option PollTrace
  | [] => none
  | s :: rest =>
    if s ≠ "InProgress" then
      some ⟨1, 0, s⟩
    else
      match pollLoop rest with
      | none => none
      | some t => some ⟨t.queries + 1, t.sleeps + 1, t.finalStatus⟩

/-- Stream version of the same loop: `f i` is the status returned by the
(i+1)-st `get_async_invoke` call.  The loop in the source has no attempt cap;
`fuel` is only the observation depth of the embedding.  Returns the index of
the terminating query and its status. -/
def pollLoopFuel (f : Nat → String) : Nat → Nat → Option (Nat × String)
  | 0, _ => none
  | fuel + 1, i =>
    if f i ≠ "InProgress" then some (i, f i)
    else pollLoopFuel f fuel (i + 1)

/-! ## S3 location derivation and final report (lines 54-58 and 71-74)

`s3_prefix = invocation_arn.split('/')[-1]` is the suffix of the ARN after
its last '/'; `s3_location = f"s3://{bucket}/videos/{s3_prefix}"`.  On a
terminal status the script prints either
`f"\nVideo is ready at {s3_location}/output.mp4"` (Completed) or
`f"\nVideo generation status: {status}"`. -/

/-- `arn.split('/')[-1]`: the suffix after the last '/' (the whole string
when it has no '/'). -/
def lastSegment (l : List Char) : List Char :=
  (l.reverse.takeWhile (· ≠ '/')).reverse

def s3LocationOf (bucket : String) (arn : List Char) : List Char :=
  "s3://".data ++ bucket.data ++ "/videos/".data ++ lastSegment arn

structure VideoRun where
  s3UriMessage : List Char
  finalStatus : String
  finalMessage : List Char
  deriving Repr, DecidableEq

/-- The tail of the text-to-video script after `start_async_invoke`
returned `arn`: derive `s3_location`, print the S3 URI, run the polling
loop on the status trace, and print the terminal message. -/
def videoScriptTail (bucket : String) (arn : List Char)
    (statuses : List String) : Option VideoRun :=
  let s3_location := s3LocationOf bucket arn
  match pollLoop statuses with
  | none => none
  | some t =>
    some { s3UriMessage := "\nS3 URI: ".data ++ s3_location
           finalStatus := t.finalStatus
           finalMessage :=
             if t.finalStatus = "Completed" then
               "\nVideo is ready at ".data ++ s3_location ++ "/output.mp4".data
             else
               "\nVideo generation status: ".data ++ t.finalStatus.data }

/-! ## Outpainting request body (bedrock_nova_image_bg_change_prompt.py, 71-91)

`change_background` rewrites the user prompt through a fixed template and
builds the OUTPAINTING request with fixed negativeText, maskPrompt,
outPaintingMode and numberOfImages. -/

structure OutPaintingParams where
  text : String
  negativeText : String
  image : String
  maskPrompt : String
  outPaintingMode : String
  deriving Repr, DecidableEq

structure ImageGenerationConfig where
  numberOfImages : Nat
  cfgScale : ℚ
  seed : Nat
  deriving Repr, DecidableEq

structure OutPaintingRequest where
  taskType : String
  outPaintingParams : OutPaintingParams
  imageGenerationConfig : ImageGenerationConfig
  deriving Repr, DecidableEq

def changeBackgroundBody (backgroundPrompt : String) (inputImage : String)
    (seed : Nat) : OutPaintingRequest :=
  { taskType := "OUTPAINTING"
    outPaintingParams :=
      { text := "person in the photo with '" ++ backgroundPrompt ++ "'"
        negativeText := "bad quality, low resolution, cartoon"
        image := inputImage
        maskPrompt := "person"
        outPaintingMode := "PRECISE" }
    imageGenerationConfig :=
      { numberOfImages := 1, cfgScale := 8, seed := seed } }

/-! ## S3 URL parsing (bedrock_nova_image_bg_remove.py, lines 62-82)

`parse_s3_url` delegates to `urllib.parse.urlparse` and then checks
`scheme == 's3'`, non-empty `netloc` (bucket) and non-empty
`path.lstrip('/')` (key), raising ValueError otherwise.  We embed the
scheme/netloc/path decomposition of CPython's `urlsplit` (only the
attributes the script reads, without username/port sub-attributes), in the
order of the library code: leading C0-control and space characters are
stripped from the URL; every tab, CR and LF is removed from it
(`_UNSAFE_URL_BYTES_TO_REMOVE`); the scheme is the (lowercased) prefix
before the first ':' when it is non-empty, starts with a letter and
consists of scheme characters; the netloc follows a leading '//' up to the
next '/', '?' or '#', and `ValueError("Invalid IPv6 URL")` is raised when
it contains '[' without ']' or ']' without '['; the fragment is split off
at the first '#', then the query at the first '?'; the path is what
remains.  `_checknetloc` (NFKC confusable rejection) returns immediately
for any all-ASCII netloc and is not modelled; the round-trip theorem below
restricts containers to ASCII accordingly. -/

/-- `url.lstrip(_WHATWG_C0_CONTROL_OR_SPACE)`: only leading characters
U+0000..U+0020 are stripped (CPython deliberately preserves trailing
ones). -/
def isC0OrSpace (c : Char) : Bool := c.val ≤ 32

def lstripControlOrSpace (l : List Char) : List Char :=
  l.dropWhile isC0OrSpace

/-- `for b in _UNSAFE_URL_BYTES_TO_REMOVE: url = url.replace(b, "")` with
the unsafe bytes being tab, CR and LF. -/
def removeUnsafeChars (l : List Char) : List Char :=
  l.filter (fun c => !(c = '\t' || c = '\r' || c = '\n'))

def hasChar (c : Char) (l : List Char) : Bool := l.any (fun x => x = c)

def isSchemeChar (c : Char) : Bool :=
  c.isAlpha || c.isDigit || c = '+' || c = '-' || c = '.'

def splitAtColon : List Char → Option (List Char × List Char)
  | [] => none
  | c :: rest =>
    if c = ':' then some ([], rest)
    else (splitAtColon rest).map (fun pr => (c :: pr.1, pr.2))

def extractScheme (l : List Char) : List Char × List Char :=
  match splitAtColon l with
  | some (before, after) =>
    if before.length > 0 && (before.headD 'x').isAlpha &&
        before.all isSchemeChar then
      (before.map Char.toLower, after)
    else ([], l)
  | none => ([], l)

def isNetlocDelim (c : Char) : Bool := c = '/' || c = '?' || c = '#'

def splitNetloc : List Char → List Char × List Char
  | '/' :: '/' :: rest =>
    (rest.takeWhile (fun c => !isNetlocDelim c),
     rest.dropWhile (fun c => !isNetlocDelim c))
  | l => ([], l)

/-- scheme, netloc and path attributes of `urlparse(l)`; `none` models the
`ValueError("Invalid IPv6 URL")` that `urlsplit` raises on a netloc with
mismatched square brackets. -/
def pyUrlparse (l0 : List Char) : Option (List Char × List Char × List Char) :=
  let l := removeUnsafeChars (lstripControlOrSpace l0)
  let sr := extractScheme l
  let nr := splitNetloc sr.2
  if (hasChar '[' nr.1 && !hasChar ']' nr.1) ||
      (hasChar ']' nr.1 && !hasChar '[' nr.1) then none
  else
    let path := (nr.2.takeWhile (· ≠ '#')).takeWhile (· ≠ '?')
    some (sr.1, nr.1, path)

inductive LocatorError
  /-- `"Invalid S3 URL scheme: ..."` (line 74) -/
  | invalidScheme (url : List Char)
  /-- `"Invalid S3 URL format: ..."` (line 80) -/
  | invalidFormat (url : List Char)
  /-- `ValueError("Invalid IPv6 URL")` raised inside `urlparse` itself and
  propagated through `parse_s3_url`. -/
  | invalidIpv6
  deriving Repr, DecidableEq

def parseS3Url (l : List Char) : Except LocatorError (List Char × List Char) :=
  match pyUrlparse l with
  | none => .error .invalidIpv6
  | some tr =>
    if tr.1 ≠ "s3".data then .error (.invalidScheme l)
    else
      let bucket := tr.2.1
      let key := tr.2.2.dropWhile (· = '/')
      if bucket.isEmpty || key.isEmpty then .error (.invalidFormat l)
      else .ok (bucket, key)

/-- Re-serialization of a parsed locator in the documented
`s3://bucket-name/key` shape. -/
def serializeS3 (bucket key : List Char) : List Char :=
  "s3://".data ++ bucket ++ '/' :: key

/-! ## Base64 transport codec

The scripts call `base64.b64encode` / `base64.b64decode` (lines 107 and
209-210 of bedrock_nova_image_bg_remove.py).  We embed the RFC 4648 standard
codec those library calls implement: bytes are `Nat`s below 256, three bytes
become four sextet characters, with '=' padding for a trailing group of one
or two bytes; decoding requires well-formed four-character groups and
correct padding, and (like CPython's binascii) discards the unused low bits
of the final sextet. -/

def b64Alphabet : List Char :=
  ['A', 'B', 'C', 'D', 'E', 'F', 'G', 'H', 'I', 'J', 'K', 'L', 'M',
   'N', 'O', 'P', 'Q', 'R', 'S', 'T', 'U', 'V', 'W', 'X', 'Y', 'Z',
   'a', 'b', 'c', 'd', 'e', 'f', 'g', 'h', 'i', 'j', 'k', 'l', 'm',
   'n', 'o', 'p', 'q', 'r', 's', 't', 'u', 'v', 'w', 'x', 'y', 'z',
   '0', '1', '2', '3', '4', '5', '6', '7', '8', '9', '+', '/']

def b64Char (n : Nat) : Char := b64Alphabet.getD n '='

def b64Index (c : Char) : Option Nat := b64Alphabet.findIdx? (· == c)

def b64EncodeList : List Nat → List Char
  | a :: b :: c :: rest =>
    b64Char (a / 4) :: b64Char ((a % 4) * 16 + b / 16) ::
      b64Char ((b % 16) * 4 + c / 64) :: b64Char (c % 64) ::
      b64EncodeList rest
  | [a, b] =>
    [b64Char (a / 4), b64Char ((a % 4) * 16 + b / 16),
     b64Char ((b % 16) * 4), '=']
  | [a] => [b64Char (a / 4), b64Char ((a % 4) * 16), '=', '=']
  | [] => []

def b64DecodeList : List Char → Option (List Nat)
  | [] => some []
  | c1 :: c2 :: c3 :: c4 :: rest =>
    match b64Index c1, b64Index c2 with
    | some s1, some s2 =>
      if c3 = '=' then
        if c4 = '=' ∧ rest = [] then some [s1 * 4 + s2 / 16] else none
      else
        match b64Index c3 with
        | some s3 =>
          if c4 = '=' then
            if rest = [] then
              some [s1 * 4 + s2 / 16, (s2 % 16) * 16 + s3 / 4]
            else none
          else
            match b64Index c4 with
            | some s4 =>
              (b64DecodeList rest).map
                (fun ds => (s1 * 4 + s2 / 16) :: ((s2 % 16) * 16 + s3 / 4) ::
                  ((s3 % 4) * 64 + s4) :: ds)
            | none => none
        | none => none
    | _, _ => none
  | _ => none

/-- `base64.b64encode(bytes).decode('utf-8')`: a total function of the
byte payload, no failure path. -/
def b64encode (bs : List Nat) : String := ⟨b64EncodeList bs⟩

/-- `base64.b64decode(s)`: `none` models the binascii.Error raised on
malformed input. -/
def b64decode (s : String) : Option (List Nat) := b64DecodeList s.data

/-! ## Response parsing (bedrock_nova_image_bg_remove.py, lines 204-219)

The parse section of `remove_background` runs, in order:
`base64_image = response_body.get("images")[0]` (TypeError when the field
is absent, IndexError when the list is empty — only KeyError/IndexError are
re-raised as the parse-failure ImageError), the `if not base64_image`
emptiness check, `encode('ascii')` (UnicodeEncodeError escapes the local
handler), `base64.b64decode` (binascii.Error escapes likewise), and only
then the `error` field check. -/

structure NovaResponse where
  images : Option (List String)
  error : Option String
  deriving Repr, DecidableEq

inductive ParseFailure
  /-- ImageError "No processed image returned in the response." (line 207):
  raised when the first list entry is falsy, i.e. the empty string. -/
  | emptyResult
  /-- ImageError "Background removal error. Error is ..." (line 214). -/
  | generationError (detail : String)
  /-- ImageError "Error parsing Bedrock response: ..." (line 219), re-raised
  from KeyError or IndexError — in particular from `images = []`. -/
  | parseError (detail : String)
  /-- TypeError from subscripting None (`images` field absent): not caught
  by the (KeyError, IndexError) handler, escapes `remove_background` and is
  caught by `main`'s generic handler. -/
  | typeError (detail : String)
  /-- UnicodeEncodeError from `encode('ascii')` or binascii.Error from
  `b64decode`: likewise escapes to `main`'s generic handler. -/
  | payloadError (detail : String)
  deriving Repr, DecidableEq

def parseNovaResponse (resp : NovaResponse) : Except ParseFailure (List Nat) :=
  match resp.images with
  | none => .error (.typeError "NoneType object is not subscriptable")
  | some [] => .error (.parseError "list index out of range")
  | some (img :: _) =>
    if img = "" then .error .emptyResult
    else if !(img.data.all (fun c => c.val < 128)) then
      .error (.payloadError "ascii codec error")
    else
      match b64decode img with
      | none => .error (.payloadError "invalid base64")
      | some bytes =>
        match resp.error with
        | some detail => .error (.generationError detail)
        | none => .ok bytes

/-! ## main of bedrock_nova_image_bg_remove.py (lines 11-60, 228-243)

`main` runs read → invoke → save inside one try; ClientError, ImageError
and any other exception are each caught, logged and turned into
`sys.exit(1)`; on success it returns 0, which `__main__` passes to
`sys.exit`.  An invalid input URL surfaces from `read_image_from_s3` (as an
ImageError wrapping the ValueError), an invalid output URL only surfaces
from `save_image_to_s3` after the model call.  The S3 transfers and the
Bedrock transport are abstracted as succeeding; `saved` records the bytes
handed to `save_image_to_s3`. -/

structure MainResult where
  saved : Option (List Nat)
  exitCode : Nat
  deriving Repr, DecidableEq

def bgRemoveMain (inputUrl outputUrl : List Char) (resp : NovaResponse) :
    MainResult :=
  match parseS3Url inputUrl with
  | .error _ => { saved := none, exitCode := 1 }
  | .ok _ =>
    match parseNovaResponse resp with
    | .error _ => { saved := none, exitCode := 1 }
    | .ok bytes =>
      match parseS3Url outputUrl with
      | .error _ => { saved := none, exitCode := 1 }
      | .ok _ => { saved := some bytes, exitCode := 0 }

/-! ## change_background of bedrock_nova_image_bg_change_prompt.py (45-111)

Its try/except catches FileNotFoundError, ClientError, ImageError and any
other exception, but every handler only calls `logging.error` and returns
normally — there is no `sys.exit` anywhere in the script, so the process
exit code is 0 whether or not a failure was caught. -/

inductive CBException
  | fileNotFound
  | clientError (msg : String)
  | imageError (msg : String)
  | otherException (msg : String)
  deriving Repr, DecidableEq

structure CBResult where
  savedFile : Option String
  loggedError : Option String
  exitCode : Nat
  deriving Repr, DecidableEq

def changeBackgroundRun (imagePath : String)
    (outcome : Except CBException Unit) : CBResult :=
  match outcome with
  | .ok _ =>
    { savedFile := some "output_background_changed.png"
      loggedError := none, exitCode := 0 }
  | .error .fileNotFound =>
    { savedFile := none
      loggedError := some ("Image file not found: " ++ imagePath)
      exitCode := 0 }
  | .error (.clientError m) =>
    { savedFile := none
      loggedError := some ("AWS service error: " ++ m), exitCode := 0 }
  | .error (.imageError m) =>
    { savedFile := none, loggedError := some m, exitCode := 0 }
  | .error (.otherException m) =>
    { savedFile := none
      loggedError := some ("An error occurred: " ++ m), exitCode := 0 }

end Bedrock

namespace Bedrock

/-! ### List helpers -/

theorem takeWhile_all_true (p : Char → Bool) (l : List Char)
    (hl : ∀ x ∈ l, p x = true) : l.takeWhile p = l := by
  induction l with
  | nil => rfl
  | cons y ys ih =>
    rw [List.takeWhile_cons, hl y (by simp)]
    rw [ih (fun x hx => hl x (by simp [hx]))]
    simp

theorem takeWhile_append_stop (p : Char → Bool) (l : List Char)
    (hl : ∀ x ∈ l, p x = true) (a : Char) (ha : p a = false) (t : List Char) :
    (l ++ a :: t).takeWhile p = l := by
  induction l with
  | nil => simp [List.takeWhile_cons, ha]
  | cons y ys ih =>
    rw [List.cons_append, List.takeWhile_cons, hl y (by simp)]
    rw [ih (fun x hx => hl x (by simp [hx]))]
    simp

theorem dropWhile_append_stop (p : Char → Bool) (l : List Char)
    (hl : ∀ x ∈ l, p x = true) (a : Char) (ha : p a = false) (t : List Char) :
    (l ++ a :: t).dropWhile p = a :: t := by
  induction l with
  | nil => simp [List.dropWhile_cons, ha]
  | cons y ys ih =>
    rw [List.cons_append, List.dropWhile_cons, hl y (by simp)]
    exact ih (fun x hx => hl x (by simp [hx]))

theorem lastSegment_append (p seg : List Char) (h : '/' ∉ seg) :
    lastSegment (p ++ '/' :: seg) = seg := by
  unfold lastSegment
  rw [List.reverse_append, List.reverse_cons]
  rw [List.append_assoc, List.singleton_append]
  rw [takeWhile_append_stop _ seg.reverse
      (fun x hx => by
        simp only [List.mem_reverse] at hx
        simp only [decide_eq_true_eq]
        exact fun he => h (he ▸ hx))
      '/' (by simp) _]
  exact List.reverse_reverse seg

theorem removeUnsafeChars_eq_self (l : List Char)
    (h : ∀ x ∈ l, x ≠ '\t' ∧ x ≠ '\r' ∧ x ≠ '\n') :
    removeUnsafeChars l = l := by
  induction l with
  | nil => rfl
  | cons y ys ih =>
    show List.filter _ (y :: ys) = y :: ys
    rw [List.filter_cons]
    obtain ⟨h1, h2, h3⟩ := h y (by simp)
    rw [if_pos (by simp [h1, h2, h3])]
    show y :: removeUnsafeChars ys = y :: ys
    rw [ih (fun x hx => h x (by simp [hx]))]

theorem hasChar_eq_false (c : Char) (l : List Char) (h : c ∉ l) :
    hasChar c l = false := by
  induction l with
  | nil => rfl
  | cons y ys ih =>
    have hy : ¬(y = c) := fun he => h (by simp [he])
    have hys : hasChar c ys = false :=
      ih (fun hm => h (List.mem_cons_of_mem y hm))
    simp only [hasChar, List.any_cons] at hys ⊢
    simp [hy, hys]

theorem bracketCond_false (nl : List Char) (h1 : '[' ∉ nl) (h2 : ']' ∉ nl) :
    ((hasChar '[' nl && !hasChar ']' nl) ||
      (hasChar ']' nl && !hasChar '[' nl)) = false := by
  rw [hasChar_eq_false _ _ h1, hasChar_eq_false _ _ h2]
  rfl

theorem b64Index_b64Char_fin :
    ∀ m : Fin 64, b64Index (b64Char m.val) = some m.val := by decide

theorem b64Char_ne_pad_fin : ∀ m : Fin 64, b64Char m.val ≠ '=' := by decide

theorem b64Index_b64Char (n : Nat) (h : n < 64) :
    b64Index (b64Char n) = some n := b64Index_b64Char_fin ⟨n, h⟩

theorem b64Char_ne_pad (n : Nat) (h : n < 64) : b64Char n ≠ '=' :=
  b64Char_ne_pad_fin ⟨n, h⟩

theorem b64DecodeList_b64EncodeList (bs : List Nat)
    (h : ∀ x ∈ bs, x < 256) :
    b64DecodeList (b64EncodeList bs) = some bs := by
  induction bs using b64EncodeList.induct with
  | case1 a b c rest ih =>
    have ha : a < 256 := h a (by simp)
    have hb : b < 256 := h b (by simp)
    have hc : c < 256 := h c (by simp)
    have h1 := b64Index_b64Char (a / 4) (by omega)
    have h2 := b64Index_b64Char ((a % 4) * 16 + b / 16) (by omega)
    have h3 := b64Index_b64Char ((b % 16) * 4 + c / 64) (by omega)
    have h4 := b64Index_b64Char (c % 64) (by omega)
    have h3ne := b64Char_ne_pad ((b % 16) * 4 + c / 64) (by omega)
    have h4ne := b64Char_ne_pad (c % 64) (by omega)
    have hrest := ih (fun x hx => h x (by simp [hx]))
    simp only [b64EncodeList, b64DecodeList, h1, h2, h3, h4, hrest]
    simp [h3ne, h4ne]
    omega
  | case2 a b =>
    have ha : a < 256 := h a (by simp)
    have hb : b < 256 := h b (by simp)
    have h1 := b64Index_b64Char (a / 4) (by omega)
    have h2 := b64Index_b64Char ((a % 4) * 16 + b / 16) (by omega)
    have h3 := b64Index_b64Char ((b % 16) * 4) (by omega)
    have h3ne := b64Char_ne_pad ((b % 16) * 4) (by omega)
    simp only [b64EncodeList, b64DecodeList, h1, h2, h3]
    simp [h3ne]
    omega
  | case3 a =>
    have ha : a < 256 := h a (by simp)
    have h1 := b64Index_b64Char (a / 4) (by omega)
    have h2 := b64Index_b64Char ((a % 4) * 16) (by omega)
    simp only [b64EncodeList, b64DecodeList, h1, h2]
    simp
    omega
  | case4 => rfl

/-! ### Poll-loop lemmas -/

theorem pollLoop_replicate (n : Nat) (t : String) (ht : t ≠ "InProgress") :
    pollLoop (List.replicate n "InProgress" ++ [t]) = some ⟨n + 1, n, t⟩ := by
  induction n with
  | zero => simp [pollLoop, ht]
  | succ k ih =>
    simp only [List.replicate_succ, List.cons_append, pollLoop, List.append_eq]
    rw [ih]
    simp

theorem pollLoopFuel_none_of_all_inProgress (f : Nat → String)
    (hf : ∀ i, f i = "InProgress") :
    ∀ fuel start, pollLoopFuel f fuel start = none := by
  intro fuel
  induction fuel with
  | zero => intro start; rfl
  | succ k ih =>
    intro start
    simp [pollLoopFuel, hf start, ih]

theorem pollLoopFuel_some_of_terminal (f : Nat → String) :
    ∀ (i start : Nat), f (start + i) ≠ "InProgress" →
      (pollLoopFuel f (i + 1) start).isSome := by
  intro i
  induction i with
  | zero =>
    intro start h
    simp only [Nat.add_zero] at h
    simp [pollLoopFuel, h]
  | succ k ih =>
    intro start h
    by_cases hs : f start = "InProgress"
    · have : pollLoopFuel f (k + 1 + 1) start = pollLoopFuel f (k + 1) (start + 1) := by
        simp [pollLoopFuel, hs]
      rw [this]
      refine ih (start + 1) ?_
      have heq : start + 1 + k = start + (k + 1) := by omega
      rw [heq]
      exact h
    · simp [pollLoopFuel, hs]

theorem pollLoopFuel_terminal_of_some (f : Nat → String) :
    ∀ (fuel start : Nat), (pollLoopFuel f fuel start).isSome →
      ∃ i, f i ≠ "InProgress" := by
  intro fuel
  induction fuel with
  | zero => intro start h; simp [pollLoopFuel] at h
  | succ k ih =>
    intro start h
    by_cases hs : f start = "InProgress"
    · simp only [pollLoopFuel, hs, ne_eq, not_true_eq_false, if_false] at h
      exact ih (start + 1) h
    · exact ⟨start, hs⟩

end Bedrock

namespace Bedrock

/-- C1: when the status query answers "InProgress" on the first N-1 calls and
a terminal status `t` on call N (N ≥ 1), the loop performs exactly N queries,
sleeps exactly N-1 times, and exits holding `t`; for N = 1 it exits after the
single query with zero sleeps. -/
theorem polling_loop_query_and_sleep_counts (n : Nat) (t : String)
    (hn : 1 ≤ n) (ht : t ≠ "InProgress") :
    pollLoop (List.replicate (n - 1) "InProgress" ++ [t]) =
      some ⟨n, n - 1, t⟩ := by
  obtain ⟨m, rfl⟩ : ∃ m, n = m + 1 := ⟨n - 1, (Nat.succ_pred_eq_of_pos hn).symm⟩
  simpa using pollLoop_replicate m t ht

theorem polling_loop_query_and_sleep_counts_witness :
    pollLoop (List.replicate 2 "InProgress" ++ ["Completed"]) =
        some ⟨3, 2, "Completed"⟩ ∧
      pollLoop (List.replicate 0 "InProgress" ++ ["Failed"]) =
        some ⟨1, 0, "Failed"⟩ :=
  ⟨polling_loop_query_and_sleep_counts 3 "Completed" (by decide) (by decide),
   polling_loop_query_and_sleep_counts 1 "Failed" (by decide) (by decide)⟩

/-- C8: the loop has no attempt cap or timeout: it terminates (some finite
observation depth suffices) iff some query returns a status other than
"InProgress"; under an infinite stream of "InProgress" answers no depth
terminates it. -/
theorem polling_loop_no_timeout (f : Nat → String) :
    ((∃ fuel, (pollLoopFuel f fuel 0).isSome) ↔ (∃ i, f i ≠ "InProgress")) ∧
      ((∀ i, f i = "InProgress") → ∀ fuel, pollLoopFuel f fuel 0 = none) := by
  constructor
  · constructor
    · rintro ⟨fuel, h⟩
      exact pollLoopFuel_terminal_of_some f fuel 0 h
    · rintro ⟨i, hi⟩
      exact ⟨i + 1, pollLoopFuel_some_of_terminal f i 0 (by simpa using hi)⟩
  · intro hf fuel
    exact pollLoopFuel_none_of_all_inProgress f hf fuel 0

theorem polling_loop_no_timeout_witness :
    ((∃ fuel, (pollLoopFuel (fun _ => "InProgress") fuel 0).isSome) ↔
        (∃ i, (fun _ : Nat => "InProgress") i ≠ "InProgress")) ∧
      ((∀ i, (fun _ : Nat => "InProgress") i = "InProgress") →
        ∀ fuel, pollLoopFuel (fun _ => "InProgress") fuel 0 = none) :=
  polling_loop_no_timeout (fun _ => "InProgress")

/-- C2 (counterexample): for bucket "bkt" and invocation ARN "a/abc" with a
single "Completed" poll, the script derives `s3://bkt/videos/abc` (the output
prefix plus the final '/'-segment of the handle), but the location reported
at Completed is that location with "/output.mp4" appended — the Completed
report is not the derived location itself. -/
theorem video_completed_report_counterexample :
    videoScriptTail "bkt" "a/abc".data ["Completed"] =
        some ⟨"\nS3 URI: s3://bkt/videos/abc".data, "Completed",
          "\nVideo is ready at s3://bkt/videos/abc/output.mp4".data⟩ ∧
      "\nVideo is ready at s3://bkt/videos/abc/output.mp4".data ≠
        "\nVideo is ready at ".data ++ s3LocationOf "bkt" "a/abc".data := by
  constructor
  · decide
  · decide

/-- C2 (amended): for every ARN of the form `p ++ "/" ++ seg` with seg free
of '/', the derived location is `s3://<bucket>/videos/<seg>` — the output
prefix with the final '/'-separated segment of the handle appended — it is
the location printed as the S3 URI, and when the final status is "Completed"
the report is that location with "/output.mp4" appended. -/
theorem video_output_location_derivation (bucket : String) (p seg : List Char)
    (statuses : List String) (run : VideoRun) (hseg : '/' ∉ seg)
    (hrun : videoScriptTail bucket (p ++ '/' :: seg) statuses = some run) :
    run.s3UriMessage =
        "\nS3 URI: ".data ++
          ("s3://".data ++ bucket.data ++ "/videos/".data ++ seg) ∧
      (run.finalStatus = "Completed" →
        run.finalMessage =
          "\nVideo is ready at ".data ++
            ("s3://".data ++ bucket.data ++ "/videos/".data ++ seg) ++
            "/output.mp4".data) := by
  unfold videoScriptTail at hrun
  cases hpl : pollLoop statuses with
  | none => rw [hpl] at hrun; simp at hrun
  | some t =>
    rw [hpl] at hrun
    simp only [Option.some_inj] at hrun
    subst hrun
    unfold s3LocationOf
    rw [lastSegment_append p seg hseg]
    refine ⟨by simp, ?_⟩
    intro hc
    have hc' : t.finalStatus = "Completed" := hc
    show (if t.finalStatus = "Completed" then _ else _) = _
    rw [if_pos hc']

theorem video_output_location_derivation_witness :
    (⟨"\nS3 URI: s3://bkt/videos/abc123".data, "Completed",
        "\nVideo is ready at s3://bkt/videos/abc123/output.mp4".data⟩ :
      VideoRun).s3UriMessage =
      "\nS3 URI: ".data ++
        ("s3://".data ++ "bkt".data ++ "/videos/".data ++ "abc123".data) :=
  (video_output_location_derivation "bkt" "arn:x".data "abc123".data
    ["InProgress", "Completed"]
    ⟨"\nS3 URI: s3://bkt/videos/abc123".data, "Completed",
      "\nVideo is ready at s3://bkt/videos/abc123/output.mp4".data⟩
    (by decide) (by decide)).1

/-- C10: the outpainting request's text parameter is always the fixed
template `person in the photo with '<d>'` — never the user description `d`
verbatim — and negativeText, maskPrompt, outPaintingMode and numberOfImages
are constants independent of the input. -/
theorem outpainting_body_fixed_template (d img : String) (seed : Nat) :
    (changeBackgroundBody d img seed).outPaintingParams.text =
        "person in the photo with '" ++ d ++ "'" ∧
      (changeBackgroundBody d img seed).outPaintingParams.text ≠ d ∧
      (changeBackgroundBody d img seed).outPaintingParams.negativeText =
        "bad quality, low resolution, cartoon" ∧
      (changeBackgroundBody d img seed).outPaintingParams.maskPrompt =
        "person" ∧
      (changeBackgroundBody d img seed).outPaintingParams.outPaintingMode =
        "PRECISE" ∧
      (changeBackgroundBody d img seed).imageGenerationConfig.numberOfImages
        = 1 := by
  refine ⟨rfl, ?_, rfl, rfl, rfl, rfl⟩
  intro h
  have h' : "person in the photo with '" ++ d ++ "'" = d := h
  have hlen := congrArg String.length h'
  rw [String.length_append, String.length_append] at hlen
  have h26 : ("person in the photo with '" : String).length = 26 := rfl
  have h1 : ("'" : String).length = 1 := rfl
  rw [h26, h1] at hlen
  omega

/-- C7 (counterexample): `s3://b/a?x` is of the form
`<scheme>://<container>/<key>` with non-empty container `b` and non-empty
key `a?x`, yet `parse_s3_url` returns the pair `(b, a)` — urlparse treats
`?x` as a query string — so re-serializing does not reproduce the original. -/
theorem parse_s3_url_roundtrip_counterexample :
    serializeS3 "b".data "a?x".data = "s3://b/a?x".data ∧
      parseS3Url "s3://b/a?x".data = .ok ("b".data, "a".data) ∧
      "a".data ≠ "a?x".data := by
  refine ⟨rfl, rfl, by decide⟩

/-- C7 (amended): for every locator `s3://<container>/<key>` with non-empty
container and key, where the container is ASCII and contains none of '/',
'?', '#', '[', ']', tab, CR, LF, the key contains none of '?', '#', tab,
CR, LF (keys may contain '/' separators), and the key does not start with
'/', parsing yields exactly `(container, key)`, so re-serializing as
`s3://<container>/<key>` reproduces the original string.  (Tab/CR/LF are
removed by urlsplit before parsing, mismatched brackets in the netloc make
urlsplit raise its Invalid-IPv6 ValueError, and restricting the container
to ASCII keeps urlsplit's NFKC netloc check a no-op, so within these
hypotheses the embedding matches the program.) -/
theorem parse_s3_url_roundtrip (bucket key : List Char)
    (hb : bucket ≠ []) (hk : key ≠ [])
    (hbc : ∀ x ∈ bucket, x ≠ '/' ∧ x ≠ '?' ∧ x ≠ '#' ∧ x ≠ '[' ∧ x ≠ ']' ∧
      x ≠ '\t' ∧ x ≠ '\r' ∧ x ≠ '\n' ∧ x.val < 128)
    (hkc : ∀ x ∈ key, x ≠ '?' ∧ x ≠ '#' ∧ x ≠ '\t' ∧ x ≠ '\r' ∧ x ≠ '\n')
    (hk0 : key.headD ' ' ≠ '/') :
    parseS3Url (serializeS3 bucket key) = .ok (bucket, key) := by
  obtain ⟨kh, kt, rfl⟩ := List.exists_cons_of_ne_nil hk
  have hkh : kh ≠ '/' := by simpa using hk0
  have hsafe : ∀ x ∈ serializeS3 bucket (kh :: kt),
      x ≠ '\t' ∧ x ≠ '\r' ∧ x ≠ '\n' := by
    intro x hx
    simp only [serializeS3, List.mem_append, List.mem_cons] at hx
    rcases hx with (hx | hx) | (rfl | hx)
    · have hx5 : x = 's' ∨ x = '3' ∨ x = ':' ∨ x = '/' ∨ x = '/' := by
        simpa using hx
      rcases hx5 with rfl | rfl | rfl | rfl | rfl <;>
        exact ⟨by decide, by decide, by decide⟩
    · obtain ⟨_, _, _, _, _, h6, h7, h8, _⟩ := hbc x hx
      exact ⟨h6, h7, h8⟩
    · exact ⟨by decide, by decide, by decide⟩
    · have hxk : x ∈ kh :: kt := by
        rcases hx with rfl | hx
        · simp
        · simp [hx]
      obtain ⟨_, _, h3, h4, h5⟩ := hkc x hxk
      exact ⟨h3, h4, h5⟩
  have hclean : removeUnsafeChars
      (lstripControlOrSpace (serializeS3 bucket (kh :: kt))) =
      serializeS3 bucket (kh :: kt) := by
    have h1 : lstripControlOrSpace (serializeS3 bucket (kh :: kt)) =
        serializeS3 bucket (kh :: kt) := rfl
    rw [h1, removeUnsafeChars_eq_self _ hsafe]
  have hurl : serializeS3 bucket (kh :: kt) =
      's' :: '3' :: ':' :: '/' :: '/' :: (bucket ++ '/' :: kh :: kt) := rfl
  have hsplit : splitAtColon
      ('s' :: '3' :: ':' :: '/' :: '/' :: (bucket ++ '/' :: kh :: kt)) =
      some (['s', '3'], '/' :: '/' :: (bucket ++ '/' :: kh :: kt)) := rfl
  have hex : extractScheme (serializeS3 bucket (kh :: kt)) =
      ("s3".data, '/' :: '/' :: (bucket ++ '/' :: kh :: kt)) := by
    rw [hurl]
    unfold extractScheme
    rw [hsplit]
    rfl
  have hbchars : ∀ x ∈ bucket, (!isNetlocDelim x) = true := by
    intro x hx
    obtain ⟨h1, h2, h3, _⟩ := hbc x hx
    simp [isNetlocDelim, h1, h2, h3]
  have hdelim : (!isNetlocDelim '/') = false := by decide
  have hnet : splitNetloc ('/' :: '/' :: (bucket ++ '/' :: kh :: kt)) =
      (bucket, '/' :: kh :: kt) := by
    show (List.takeWhile (fun c => !isNetlocDelim c) (bucket ++ '/' :: kh :: kt),
          List.dropWhile (fun c => !isNetlocDelim c) (bucket ++ '/' :: kh :: kt)) = _
    rw [takeWhile_append_stop _ _ hbchars _ hdelim,
      dropWhile_append_stop _ _ hbchars _ hdelim]
  have hbr := bracketCond_false bucket
    (fun hm => ((hbc _ hm).2.2.2.1) rfl)
    (fun hm => ((hbc _ hm).2.2.2.2.1) rfl)
  have hhash : List.takeWhile (fun x => !decide (x = '#')) (kh :: kt) =
      kh :: kt :=
    takeWhile_all_true _ _ (fun x hx => by simp [(hkc x hx).2.1])
  have hquest : List.takeWhile (fun x => !decide (x = '?')) (kh :: kt) =
      kh :: kt :=
    takeWhile_all_true _ _ (fun x hx => by simp [(hkc x hx).1])
  have hup : pyUrlparse (serializeS3 bucket (kh :: kt)) =
      some ("s3".data, bucket, '/' :: kh :: kt) := by
    simp only [pyUrlparse, hclean, hex, hnet]
    rw [hbr]
    simp
    rw [hhash, hquest]
  have hdrop : ('/' :: kh :: kt).dropWhile (· = '/') = kh :: kt := by
    rw [List.dropWhile_cons, List.dropWhile_cons]
    simp [hkh]
  obtain ⟨bh, bt, rfl⟩ := List.exists_cons_of_ne_nil hb
  simp only [parseS3Url, hup, hdrop]
  simp

theorem parse_s3_url_roundtrip_witness :
    parseS3Url (serializeS3 "my-bucket".data "path/to/img.png".data) =
      .ok ("my-bucket".data, "path/to/img.png".data) :=
  parse_s3_url_roundtrip "my-bucket".data "path/to/img.png".data
    (by decide) (by decide) (by decide) (by decide) (by decide)

/-- C9: decoding the base64 encoding of any byte payload returns the payload
exactly; encoding is a total deterministic function of the payload with no
failure path (it is a plain Lean function into String). -/
theorem codec_roundtrip (bs : List Nat) (h : ∀ x ∈ bs, x < 256) :
    b64decode (b64encode bs) = some bs :=
  b64DecodeList_b64EncodeList bs h

theorem codec_roundtrip_witness :
    b64decode (b64encode [104, 105, 33]) = some [104, 105, 33] :=
  codec_roundtrip [104, 105, 33] (by decide)

/-- C3 (counterexample): a response with `images: []` fails with the
parse-failure kind — `response_body.get("images")[0]` raises IndexError,
re-raised as ImageError "Error parsing Bedrock response: ..." — not with the
empty-result kind the claim requires. -/
theorem empty_images_counterexample :
    parseNovaResponse ⟨some [], none⟩ =
        .error (.parseError "list index out of range") ∧
      parseNovaResponse ⟨some [], none⟩ ≠ .error .emptyResult :=
  ⟨rfl, fun hcontra => by
    rw [parseNovaResponse] at hcontra
    exact ParseFailure.noConfusion (Except.error.inj hcontra)⟩

/-- C3 (amended): a synchronous response with an empty output-image list
fails with the parse-failure kind (IndexError re-raised as the
response-parsing ImageError), not EmptyResult; no output is written and the
process exits 1.  The EmptyResult kind instead fires when the first list
entry is an empty string. -/
theorem empty_images_parse_failure (e : Option String)
    (inUrl outUrl : List Char) :
    parseNovaResponse ⟨some [], e⟩ =
        .error (.parseError "list index out of range") ∧
      (bgRemoveMain inUrl outUrl ⟨some [], e⟩).saved = none ∧
      (bgRemoveMain inUrl outUrl ⟨some [], e⟩).exitCode = 1 := by
  refine ⟨rfl, ?_, ?_⟩ <;>
    · unfold bgRemoveMain
      cases parseS3Url inUrl <;> simp [parseNovaResponse]

/-- C4 (counterexample): a response carrying `error: "some policy
violation"` together with an empty images list fails with the parse-failure
kind, not with GenerationError carrying the detail — the error field is
checked only after the output field has been indexed and decoded, so it
does not take precedence. -/
theorem error_field_precedence_counterexample :
    parseNovaResponse ⟨some [], some "some policy violation"⟩ =
        .error (.parseError "list index out of range") ∧
      parseNovaResponse ⟨some [], some "some policy violation"⟩ ≠
        .error (.generationError "some policy violation") :=
  ⟨rfl, fun hcontra => by
    rw [parseNovaResponse] at hcontra
    exact ParseFailure.noConfusion (Except.error.inj hcontra)⟩

/-- C4 (amended): when the response carries a non-null error detail AND its
images list has a non-empty, ascii, base64-decodable first entry, the call
fails with GenerationError carrying exactly that detail, no output is
written, and the process exits 1; the decoding of the output happens before
the error check, so responses whose error field accompanies a missing,
empty or undecodable image fail with the corresponding parse/decode kind
instead. -/
theorem error_field_generation_error (img : String) (bs : List Nat)
    (rest : List String) (d : String) (inUrl outUrl : List Char)
    (hne : img ≠ "")
    (hascii : img.data.all (fun c => c.val < 128) = true)
    (hdec : b64decode img = some bs) :
    parseNovaResponse ⟨some (img :: rest), some d⟩ =
        .error (.generationError d) ∧
      (bgRemoveMain inUrl outUrl ⟨some (img :: rest), some d⟩).saved = none ∧
      (bgRemoveMain inUrl outUrl ⟨some (img :: rest), some d⟩).exitCode
        = 1 := by
  have hparse : parseNovaResponse ⟨some (img :: rest), some d⟩ =
      .error (.generationError d) := by
    simp [parseNovaResponse, hne, hascii, hdec]
  refine ⟨hparse, ?_, ?_⟩ <;>
    · unfold bgRemoveMain
      cases parseS3Url inUrl <;> simp [hparse]

theorem error_field_generation_error_witness :
    parseNovaResponse ⟨some ["aGk=" ], some "some policy violation"⟩ =
      .error (.generationError "some policy violation") :=
  (error_field_generation_error "aGk=" [104, 105] [] "some policy violation"
    "s3://b/in.png".data "s3://b/out.png".data
    (by decide) (by decide) (by decide)).1

/-- C5 (counterexample): in the background-change script a caught failure
(here FileNotFoundError) is only logged; the process exit code is 0, not the
non-zero exit the claim requires for every script entrypoint. -/
theorem change_background_exit_code_counterexample :
    changeBackgroundRun "photo.png" (.error .fileNotFound) =
        ⟨none, some "Image file not found: photo.png", 0⟩ ∧
      (changeBackgroundRun "photo.png" (.error .fileNotFound)).exitCode
        ≠ 1 :=
  ⟨rfl, by decide⟩

/-- C5 (amended): the background-removal script exits 0 exactly when the
pipeline succeeded and the output bytes were written, and 1 on every caught
failure; the background-change script catches FileNotFoundError,
ClientError, ImageError and generic exceptions but only logs them, so its
process exits 0 regardless of the outcome. -/
theorem script_exit_codes (inUrl outUrl : List Char) (resp : NovaResponse)
    (p : String) (outcome : Except CBException Unit) :
    ((bgRemoveMain inUrl outUrl resp).exitCode = 0 ↔
        (bgRemoveMain inUrl outUrl resp).saved.isSome) ∧
      (changeBackgroundRun p outcome).exitCode = 0 := by
  constructor
  · unfold bgRemoveMain
    cases parseS3Url inUrl with
    | error e => simp
    | ok v =>
      cases parseNovaResponse resp with
      | error e => simp
      | ok bytes =>
        cases parseS3Url outUrl with
        | error e => simp
        | ok w => simp
  · cases outcome with
    | ok u => rfl
    | error e => cases e <;> rfl

end Bedrock
